import Mathlib

/-
Verification of the care2data RAG core against its specification.

The development shallowly embeds the Python sources:
  * rag_clinical.py          (ClinicalRAGRetriever: query composer, vector
                              search pipeline, retriever, context formatter)
  * vector_ingestion.py      (MedicalKnowledgeVectorizer: chunker, name
                              extraction)
  * clinical_narrative_engine.py (_extract_field post-processor)

Text is embedded as `List Char` (Python `str`), Python `int` as `Int`,
and embedding vectors as `List ℤ`: cosine similarity is invariant under
positive scaling of each vector, so every store of rational-coordinate
vectors is cosine-equivalent to an integer-coordinate one (scale each
vector by a common denominator), and integer coordinates let ranking
comparisons be computed exactly by cross-multiplication.  Python string operations
(`str.split`, `" ".join`, `str.strip`, `str.find`, slicing) and the two
regular expressions used by the sources are translated into executable
Lean functions below.
-/

/-! ## Python string primitives -/

/-- Python whitespace (`str.split()` / `str.strip()` / regex `\s`, ASCII). -/
def pyIsSpace (c : Char) : Bool :=
  c = ' ' || c = '\t' || c = '\n' || c = '\r' || c = '\x0b' || c = '\x0c'

/-- Test `isPrefB n h`: `n` is a prefix of `h`. -/
def isPrefB : List Char → List Char → Bool
  | [], _ => true
  | _ :: _, [] => false
  | a :: as, b :: bs => a = b && isPrefB as bs

/-- Test `isInfB n h`: `n` occurs as a contiguous substring of `h`
(Python `n in h`). -/
def isInfB (n : List Char) : List Char → Bool
  | [] => isPrefB n []
  | h :: t => isPrefB n (h :: t) || isInfB n t

/-- Python `str.strip()`. -/
def pyStrip (l : List Char) : List Char :=
  (((l.dropWhile pyIsSpace).reverse).dropWhile pyIsSpace).reverse

/-- Python `str.split()` (split on whitespace runs, dropping empty parts). -/
def splitWs : List Char → List (List Char)
  | [] => []
  | c :: cs =>
    if pyIsSpace c then splitWs cs
    else
      match cs, splitWs cs with
      | [], _ => [[c]]
      | d :: _, r =>
        if pyIsSpace d then [c] :: r
        else
          match r with
          | [] => [[c]]
          | w :: ws => (c :: w) :: ws

/-- Python `" ".join(ws)`. -/
def joinSp : List (List Char) → List Char
  | [] => []
  | w :: ws =>
    match ws with
    | [] => w
    | _ :: _ => w ++ ' ' :: joinSp ws

/-- Python `" ".join(s.split())`: collapse all whitespace to single spaces. -/
def normalizeWs (l : List Char) : List Char := joinSp (splitWs l)

/-- Python `s.split(sep)` for a one-character separator (keeps empty parts). -/
def splitOnC (sep : Char) : List Char → List (List Char)
  | [] => [[]]
  | c :: cs =>
    let r := splitOnC sep cs
    if c = sep then [] :: r
    else
      match r with
      | [] => [[c]]
      | w :: ws => (c :: w) :: ws

/-- Index (counted from the front) of the first suffix of `l` satisfying
`p`; used to model leftmost regex matching and Python `str.find`. -/
def firstIdxWhere (p : List Char → Bool) : List Char → Option Nat
  | [] => if p [] then some 0 else none
  | c :: t => if p (c :: t) then some 0 else (firstIdxWhere p t).map (· + 1)

/-- Index of the last element of `l` satisfying `p`. -/
def lastIdxWhere (p : Char → Bool) : List Char → Option Nat
  | [] => none
  | c :: t =>
    match lastIdxWhere p t with
    | some j => some (j + 1)
    | none => if p c then some 0 else none

/-- Concatenation of a list of lists (Python's chunk accumulation loop). -/
def listJoin {α : Type} : List (List α) → List α
  | [] => []
  | l :: ls => l ++ listJoin ls

/-! ## rag_clinical.py — query composer -/

/-- Source `age_risk = "elderly" if age >= 65 else "adult"`
(rag_clinical.py line 85). -/
def ageRisk (age : Int) : List Char :=
  if 65 ≤ age then ("elderly").toList else ("adult").toList

/-- Duration modifier (rag_clinical.py lines 88-93). -/
def durationTag (days : Int) : List Char :=
  if days ≤ 7 then ("short-term").toList
  else if days ≤ 30 then ("acute").toList
  else ("chronic prolonged").toList

/-- Source `build_semantic_query` (rag_clinical.py lines 63-100): the f-string
template followed by `" ".join(query.split())`.  The `gender` parameter is
accepted, as in the source, and is not used. -/
def build_semantic_query (drug_name stop_reason : List Char) (age days : Int)
    (gender : List Char) : List Char :=
  let age_risk := ageRisk age
  let duration := durationTag days
  let query :=
    drug_name ++ (" ").toList ++ stop_reason ++
    (" adverse effect mechanism toxicity \n        ").toList ++
    age_risk ++ (" age risk ").toList ++
    duration ++
    (" duration pathophysiology \n        clinical manifestation syndrome complication serious").toList
  normalizeWs query

/-! ## rag_clinical.py — knowledge store and vector search

The Knowledge Store itself is MongoDB Atlas, which is not part of the
repository's sources; its `$vectorSearch` stage is modelled from the
spec (§4.3, §6): it returns up to `limit` stored chunks ranked by
descending cosine similarity to the query vector, `numCandidates` being
a recall knob with no correctness content ("implementers may use exact
search for small corpora").  The numeric `vectorSearchScore` is an
opaque monotone function of the cosine ((1+cos)/2), irrational in
general, so scores are modelled through the ranking order only and the
projected chunks carry no numeric score field. -/

/-- A chunk as stored in the `medical_knowledge` collection
(vector_ingestion.py `ingest_directory`).  The Python dict field
`section` is named `sectionLabel` (`section` is a Lean keyword);
free-form `metadata` is irrelevant to every claim and omitted. -/
structure StoredChunk where
  document_type : List Char
  name : List Char
  sectionLabel : List Char
  chunk_text : List Char
  embedding : List ℤ
deriving DecidableEq

/-- The `$project`-ed search result (rag_clinical.py `RetrievedChunk`,
minus the opaque numeric score — see the section comment). -/
structure RetrievedChunk where
  document_type : List Char
  name : List Char
  sectionLabel : List Char
  chunk_text : List Char
deriving DecidableEq

/-- Dot product of two integer-coordinate vectors. -/
def dotQ : List ℤ → List ℤ → ℤ
  | [], _ => 0
  | _, [] => 0
  | a :: as, b :: bs => a * b + dotQ as bs

/-- Exact comparison `cos(q,a) ≤ cos(q,b)` for nonzero vectors, done by
sign analysis and squared cross-multiplication (cosine itself is
irrational in general, so it is compared, never computed). -/
def cosLeB (q a b : List ℤ) : Bool :=
  let da := dotQ q a
  let db := dotQ q b
  let na := dotQ a a
  let nb := dotQ b b
  if 0 ≤ da then
    (if 0 ≤ db then decide (da * da * nb ≤ db * db * na) else false)
  else
    (if 0 ≤ db then true else decide (db * db * na ≤ da * da * nb))

/-- Insert `a` into a descending-ranked list: `le a b` means `a` ranks no
higher than `b`, so `a` moves past `b`. -/
def insertRank {α : Type} (le : α → α → Bool) (a : α) : List α → List α
  | [] => [a]
  | b :: bs => if le a b then b :: insertRank le a bs else a :: b :: bs

/-- Insertion sort into descending rank order. -/
def sortDesc {α : Type} (le : α → α → Bool) : List α → List α
  | [] => []
  | a :: as => insertRank le a (sortDesc le as)

/-- Modelled from the spec: the MongoDB Atlas `$vectorSearch` stage
(missing from src/ — it is the external Knowledge Store engine).  Per
spec §4.3 it returns up to `limit` chunks ranked by descending cosine
similarity to the query vector; `numCandidates` is a recall knob, and
exact search is permitted, so the model sorts the whole store. -/
def vectorSearchBackend (store : List StoredChunk) (queryVector : List ℤ)
    (numCandidates limit : Nat) : List StoredChunk :=
  (sortDesc (fun c1 c2 => cosLeB queryVector c1.embedding c2.embedding) store).take limit

/-- Source `vector_search` (rag_clinical.py lines 102-163): the aggregation
pipeline is `$vectorSearch` (with `numCandidates = top_k * 10` and
`limit = top_k`), then — when a document type is given — a `$match` on
`document_type` inserted at pipeline index 1 (i.e. after the
`$vectorSearch` stage), then the `$project` to `RetrievedChunk`.
Python's `document_type: str = None` is modelled as `Option`. -/
def vector_search (store : List StoredChunk) (query_embedding : List ℤ)
    (document_type : Option (List Char)) (top_k : Nat) : List RetrievedChunk :=
  let results := vectorSearchBackend store query_embedding (top_k * 10) top_k
  let results : List StoredChunk :=
    match document_type with
    | some t => results.filter (fun r => r.document_type == t)
    | none => results
  results.map (fun r =>
    { document_type := r.document_type, name := r.name,
      sectionLabel := r.sectionLabel, chunk_text := r.chunk_text })

/-! ## rag_clinical.py — retriever and context formatter -/

/-- One entry of `context["drug_context"]` / `context["syndrome_context"]`
(rag_clinical.py lines 238-255); the numeric score is omitted as above. -/
structure CtxEntry where
  name : List Char
  sectionLabel : List Char
  text : List Char
deriving DecidableEq

/-- The `context` dictionary returned by `retrieve_for_case`
(rag_clinical.py lines 230-256). -/
structure Bundle where
  patient_id : List Char
  drug_name : List Char
  stop_reason : List Char
  age : Int
  days : Int
  gender : List Char
  query : List Char
  drug_context : List CtxEntry
  syndrome_context : List CtxEntry

/-- External calls `retrieve_for_case` makes, in program order: one
embedding-model call and the store searches it issues. -/
inductive RagOp where
  | embedCall : List Char → RagOp
  | searchCall : List ℤ → Option (List Char) → Nat → RagOp
deriving DecidableEq

/-- Source `retrieve_for_case` (rag_clinical.py lines 165-258).  The embedding
model is an external deterministic function (`embedFn`, spec §4.2); the
result records the built context, the trace of external calls in source
order, and the store state after the call (`aggregate` is read-only, spec
§4.5: "none beyond the store's read-only search"). -/
def retrieve_for_case (embedFn : List Char → List ℤ) (store : List StoredChunk)
    (patient_id drug_name stop_reason : List Char) (age days : Int)
    (gender : List Char) (drug_chunks syndrome_chunks : Nat) :
    Bundle × List RagOp × List StoredChunk :=
  let query := build_semantic_query drug_name stop_reason age days gender
  let query_embedding := embedFn query
  let drug_results := vector_search store query_embedding (some (("drug").toList)) drug_chunks
  let syndrome_results := vector_search store query_embedding (some (("syndrome").toList)) syndrome_chunks
  let context : Bundle :=
    { patient_id := patient_id, drug_name := drug_name, stop_reason := stop_reason,
      age := age, days := days, gender := gender, query := query,
      drug_context := drug_results.map (fun c => ⟨c.name, c.sectionLabel, c.chunk_text⟩),
      syndrome_context := syndrome_results.map (fun c => ⟨c.name, c.sectionLabel, c.chunk_text⟩) }
  (context,
   [RagOp.embedCall query,
    RagOp.searchCall query_embedding (some (("drug").toList)) drug_chunks,
    RagOp.searchCall query_embedding (some (("syndrome").toList)) syndrome_chunks],
   store)

/-- Decimal rendering of a chunk ordinal (Python f-string `{i}`). -/
def natStr (n : Nat) : List Char := (Nat.repr n).toList

/-- One formatter loop (rag_clinical.py lines 273-280): renders each
entry as `[<label> <i>] <name> - <section>\n<text>\n\n`, `i` counted
from 1 (`enumerate(..., 1)`). -/
def renderKList (label : List Char) : Nat → List CtxEntry → List Char
  | _, [] => []
  | i, c :: rest =>
    ("[").toList ++ label ++ (" ").toList ++ natStr i ++ ("] ").toList ++
    c.name ++ (" - ").toList ++ c.sectionLabel ++ ("\n").toList ++
    c.text ++ ("\n\n").toList ++ renderKList label (i + 1) rest

/-- Source `format_context_for_llm` (rag_clinical.py lines 260-282). -/
def format_context_for_llm (context : Bundle) : List Char :=
  ("=== RETRIEVED MEDICAL KNOWLEDGE ===\n\n").toList ++
  (("--- DRUG INFORMATION ---\n\n").toList ++
   (renderKList (("Drug Knowledge").toList) 1 context.drug_context ++
    (("\n--- SYNDROME INFORMATION ---\n\n").toList ++
     renderKList (("Syndrome Knowledge").toList) 1 context.syndrome_context)))

/-! ## vector_ingestion.py — document name extraction

`re.search(r'(DRUG NAME|SYNDROME):\s*(.+)', content)` followed by
`group(2).strip()`, with the source filename stem as fallback.  The
regex is translated exactly: leftmost match position, greedy `\s*` with
backtracking (`\s` may cross newlines), then greedy `.+` (at least one
non-newline character) up to the next newline or the end. -/

/-- The `\s*(.+)` part of the name regex, applied to the text after the
colon: `none` when it cannot match at this position, otherwise
`group(2)` (before `strip()`). -/
def group2 (l : List Char) : Option (List Char) :=
  let run := l.takeWhile pyIsSpace
  if run.length < l.length then
    some ((l.drop run.length).takeWhile (fun c => c != '\n'))
  else
    match lastIdxWhere (fun c => c != '\n') run with
    | none => none
    | some k => some ((l.drop k).takeWhile (fun c => c != '\n'))

/-- Whole-regex match attempt at one position (the suffix starting
there); the two alternatives start with different characters, so at most
one prefix applies. -/
def nameMatchAt (suf : List Char) : Option (List Char) :=
  if isPrefB (("DRUG NAME:").toList) suf then group2 (suf.drop 10)
  else if isPrefB (("SYNDROME:").toList) suf then group2 (suf.drop 9)
  else none

/-- The `re.search` scan: first position where the name regex matches. -/
def findNameMatch : List Char → Option (List Char)
  | [] => none
  | c :: t =>
    match nameMatchAt (c :: t) with
    | some v => some v
    | none => findNameMatch t

/-- Source `doc_name` (vector_ingestion.py lines 93-94).  `Path(file_path).stem`
is external path arithmetic; the model takes the stem as the input
describing the file. -/
def docNameOf (stem content : List Char) : List Char :=
  match findNameMatch content with
  | some v => pyStrip v
  | none => stem

/-! ## vector_ingestion.py — section chunking

For each section label the source runs
`re.search(rf'{section}:\s*\n(.*?)(?=\n[A-Z\s]+:|$)', content, re.DOTALL)`.
Translation: the whole regex matches at a position iff the literal
`section:` prefix matches there and the greedy `\s*\n` succeeds (the
whitespace run after the colon contains a newline; greediness with
backtracking makes the body start after the last newline of that run).
The lazy `(.*?)` then stops at the first position where the lookahead
matches: either `\n` followed by one or more `[A-Z\s]` characters and a
colon, or the end of the string (with `$` also matching just before a
trailing newline). -/

def capsOrWs (c : Char) : Bool :=
  (decide ('A' ≤ c) && decide (c ≤ 'Z')) || pyIsSpace c

/-- Class run `[A-Z\s]+:` — the greedy class run must be nonempty and be followed
immediately by a colon (a colon is not in the class, so backtracking
cannot help). -/
def capsColon (l : List Char) : Bool :=
  let run := l.takeWhile capsOrWs
  decide (1 ≤ run.length) && decide ((l.drop run.length).head? = some ':')

/-- The lookahead `(?=\n[A-Z\s]+:|$)` tested against the rest of the
document from the current position (no MULTILINE: `$` matches at the end
or just before a trailing newline). -/
def lookMatch : List Char → Bool
  | [] => true
  | [c] => c = '\n'
  | c :: rest => c = '\n' && capsColon rest

/-- Offset at which the lazy `(.*?)` stops: the least position whose
remainder satisfies the lookahead (the end of the list always does). -/
def lazyStop : List Char → Nat
  | [] => 0
  | c :: t => if lookMatch (c :: t) then 0 else lazyStop t + 1

/-- Does `section:` followed by `\s*\n` match at this position? -/
def sectionMatchAt (sec suf : List Char) : Bool :=
  isPrefB (sec ++ [':']) suf &&
    ((suf.drop (sec.length + 1)).takeWhile pyIsSpace).any (fun c => c = '\n')

/-- Value `match.group(1).strip()` of the section regex, or `none` when the
section header is absent (vector_ingestion.py lines 112-117). -/
def sectionExtract (sec content : List Char) : Option (List Char) :=
  match firstIdxWhere (fun suf => sectionMatchAt sec suf) content with
  | none => none
  | some i =>
    let after := (content.drop i).drop (sec.length + 1)
    let run := after.takeWhile pyIsSpace
    let r := lastIdxWhere (fun c => c = '\n') run
    let body0 := after.drop (r.getD 0 + 1)
    some (pyStrip (body0.take (lazyStop body0)))

/-- Source `self.drug_sections` (vector_ingestion.py lines 58-66). -/
def drug_sections : List (List Char) :=
  [("MECHANISM OF ACTION").toList,
   ("COMMON ADVERSE EFFECTS").toList,
   ("SERIOUS ADVERSE EFFECTS").toList,
   ("RISK FACTORS").toList,
   ("CONTRAINDICATIONS").toList,
   ("MONITORING").toList,
   ("DRUG INTERACTIONS").toList]

/-- Source `self.syndrome_sections` (vector_ingestion.py lines 68-76). -/
def syndrome_sections : List (List Char) :=
  [("KEY SYMPTOMS").toList,
   ("PATHOPHYSIOLOGY").toList,
   ("RISK FACTORS").toList,
   ("DIAGNOSTIC MARKERS").toList,
   ("CLINICAL ACTION").toList,
   ("COMPLICATIONS").toList,
   ("SEVERITY").toList]

/-- Source `sections = self.drug_sections if document_type == "drug" else
self.syndrome_sections` (vector_ingestion.py lines 98-101). -/
def sectionsFor (document_type : List Char) : List (List Char) :=
  if document_type = ("drug").toList then drug_sections else syndrome_sections

/-- One chunk dictionary from `chunk_markdown_file`; the Python key
`section` is named `sectionLabel`. -/
structure ChunkDict where
  sectionLabel : List Char
  text : List Char
  name : List Char
deriving DecidableEq

/-- The per-section chunk dictionary (vector_ingestion.py lines
119-129): chunk text is `Document: <name>\nSection: <section>\n\n<body>`. -/
def sectionChunk (dn sec body : List Char) : ChunkDict :=
  { sectionLabel := sec,
    text := ("Document: ").toList ++ dn ++ ("\nSection: ").toList ++
            sec ++ ("\n\n").toList ++ body,
    name := dn }

/-- One iteration of the section loop (vector_ingestion.py lines
112-129): no chunk when the section regex does not match, one chunk when
it does. -/
def sectionChunks (content dn sec : List Char) : List ChunkDict :=
  match sectionExtract sec content with
  | none => []
  | some body => [sectionChunk dn sec body]

/-- Source `chunk_markdown_file` (vector_ingestion.py lines 78-131): the
FULL_DOCUMENT chunk first, then one chunk per matched section label in
vocabulary order.  The file is given by its name stem and its content. -/
def chunk_markdown_file (stem content document_type : List Char) : List ChunkDict :=
  let doc_name := docNameOf stem content
  let sections := sectionsFor document_type
  let full_text := ("Document: ").toList ++ doc_name ++ ("\n\n").toList ++ content
  ({ sectionLabel := ("FULL_DOCUMENT").toList, text := full_text, name := doc_name } : ChunkDict) ::
  listJoin (sections.map (sectionChunks content doc_name))

/-! ## clinical_narrative_engine.py — `_extract_field` -/

/-- Source `_extract_field` (clinical_narrative_engine.py lines 235-246): try
the keywords in order; for a keyword present in the text take the
500-character slice starting at its first occurrence, split it on `'.'`,
and if at least two parts result return the second one stripped and cut
to 200 characters; otherwise continue with the next keyword; return the
fixed fallback when no keyword produces a value. -/
def extract_field (text : List Char) : List (List Char) → List Char
  | [] => ("See full narrative").toList
  | keyword :: rest =>
    match firstIdxWhere (fun suf => isPrefB keyword suf) text with
    | none => extract_field text rest
    | some start =>
      match splitOnC '.' ((text.drop start).take 500) with
      | _ :: s :: _ => (pyStrip s).take 200
      | _ => extract_field text rest

/-- Does this keyword yield a value in `_extract_field`: it occurs in the
text and at least one period follows within its 500-character slice. -/
def yieldsB (text k : List Char) : Bool :=
  match firstIdxWhere (fun suf => isPrefB k suf) text with
  | none => false
  | some start =>
    match splitOnC '.' ((text.drop start).take 500) with
    | _ :: _ :: _ => true
    | _ => false

/-- The value `_extract_field` produces from one yielding keyword. -/
def secondSentenceVal (text k : List Char) : List Char :=
  match firstIdxWhere (fun suf => isPrefB k suf) text with
  | none => ("See full narrative").toList
  | some start =>
    match splitOnC '.' ((text.drop start).take 500) with
    | _ :: s :: _ => (pyStrip s).take 200
    | _ => ("See full narrative").toList

/-! ## Definitions taken from the claims' wording (for comparison) -/

/-- From the claim C3 wording: "elderly" iff age ≥ 65, else "adult". -/
def ageTagClaim (age : Int) : List Char :=
  if 65 ≤ age then ("elderly").toList else ("adult").toList

/-- From the claim C3 wording: the three duration bands stated with
two-sided bounds ("short-term" for ≤ 7, "acute" for 8..30, "chronic
prolonged" for ≥ 31). -/
def durationTagClaim (days : Int) : List Char :=
  if days ≤ 7 then ("short-term").toList
  else if 8 ≤ days ∧ days ≤ 30 then ("acute").toList
  else ("chronic prolonged").toList

/-- From the claim C8 wording: the document name comes from a leading
`DRUG NAME:`/`SYNDROME:` header line (i.e. one starting the document),
with the filename stem as fallback when no such leading line is present. -/
def docNameClaim (stem content : List Char) : List Char :=
  if isPrefB (("DRUG NAME:").toList) content then
    pyStrip ((content.drop 10).takeWhile (fun c => c != '\n'))
  else if isPrefB (("SYNDROME:").toList) content then
    pyStrip ((content.drop 9).takeWhile (fun c => c != '\n'))
  else stem

/-! ## Concrete inputs used by counterexamples and witnesses -/

/-- A stored drug chunk with the given name and embedding. -/
def mkDrugChunk (nm : List Char) (e : List ℤ) : StoredChunk :=
  ⟨("drug").toList, nm, ("FULL_DOCUMENT").toList, ("t").toList, e⟩

/-- C1 failing input, query vector. -/
def c1q : List ℤ := [1, 0]

/-- C1 failing input: five drug chunks strictly more similar to `c1q`
than the single syndrome chunk (cosines 1, 0.97, 0.95, 0.89, 0.71 vs 0). -/
def c1store : List StoredChunk :=
  [mkDrugChunk (("d1").toList) [1, 0],
   mkDrugChunk (("d2").toList) [4, 1],
   mkDrugChunk (("d3").toList) [3, 1],
   mkDrugChunk (("d4").toList) [2, 1],
   mkDrugChunk (("d5").toList) [1, 1],
   ⟨("syndrome").toList, ("s1").toList, ("FULL_DOCUMENT").toList, ("t").toList, [0, 1]⟩]

/-- C4 counterexample text: the first keyword of the syndrome field
("SYNDROME CORRELATION") occurs with no period after it, while the
second keyword ("Probable Syndrome") occurs earlier with two periods in
its 500-character slice. -/
def c4text : List Char :=
  ("Probable Syndrome one. two. SYNDROME CORRELATION end").toList

/-- The syndrome-field keyword list
(clinical_narrative_engine.py line 212). -/
def c4keywords : List (List Char) :=
  [("SYNDROME CORRELATION").toList, ("Probable Syndrome").toList]

/-- C6 witness bundle: a retrieval context with no drug chunks and no
syndrome chunks. -/
def c6ctx : Bundle :=
  { patient_id := ("P1").toList, drug_name := ("d").toList,
    stop_reason := ("r").toList, age := 50, days := 10,
    gender := [], query := ("q").toList,
    drug_context := [], syndrome_context := [] }

/-- The boilerplate keywords of the query template, first group. -/
def kw4 : List (List Char) :=
  [("adverse").toList, ("effect").toList, ("mechanism").toList, ("toxicity").toList]

/-- The fixed words between the age tag and the duration tag. -/
def kwAgeRisk : List (List Char) := [("age").toList, ("risk").toList]

/-- The boilerplate keywords of the query template, final group. -/
def kw7 : List (List Char) :=
  [("duration").toList, ("pathophysiology").toList, ("clinical").toList,
   ("manifestation").toList, ("syndrome").toList, ("complication").toList,
   ("serious").toList]

/-! ## Claims C3, C9, C5 -/

/-- C3: the Query Composer tags are exactly "elderly" for age ≥ 65 and
"adult" otherwise, and "short-term" / "acute" / "chronic prolonged" for
duration ≤ 7 / 8..30 / ≥ 31 — the code's first-threshold-wins chain
coincides with the claim's two-sided bands, which are mutually exclusive
and exhaustive (exactly one band holds), and the boundary values 64/65
and 7/8/30/31 fall as stated. -/
theorem claim_C3 : ∀ age days : Int,
    ageRisk age = ageTagClaim age ∧
    durationTag days = durationTagClaim days ∧
    ((if days ≤ 7 then 1 else 0) + (if 8 ≤ days ∧ days ≤ 30 then 1 else 0) +
      (if 31 ≤ days then 1 else 0) = (1 : Nat)) ∧
    ageRisk 64 = ("adult").toList ∧
    ageRisk 65 = ("elderly").toList ∧
    durationTag 7 = ("short-term").toList ∧
    durationTag 8 = ("acute").toList ∧
    durationTag 30 = ("acute").toList ∧
    durationTag 31 = ("chronic prolonged").toList := by
  intro age days
  refine ⟨rfl, ?_, ?_, by decide, by decide, by decide, by decide, by decide, by decide⟩
  · unfold durationTag durationTagClaim
    split_ifs <;> first | rfl | (exfalso; omega)
  · split_ifs <;> omega

/-- C9: `build_semantic_query` accepts a gender argument but never uses
it, so two calls agreeing on drug, stop reason, age and duration but
differing in gender compose identical query strings (and hence identical
query embeddings downstream). -/
theorem claim_C9 : ∀ (drug stop : List Char) (age days : Int) (g1 g2 : List Char),
    build_semantic_query drug stop age days g1 =
    build_semantic_query drug stop age days g2 := by
  intro drug stop age days g1 g2
  rfl

/-- C5: with the default counts (5, 5), `retrieve_for_case` leaves the
store unchanged, performs — in order — exactly one embedding call on the
composed query and exactly two type-filtered searches (drug then
syndrome) with that same query vector, and returns the bundle holding
the composed query, the original case fields, and the two search result
lists in search order. -/
theorem claim_C5 : ∀ (embedFn : List Char → List ℤ) (store : List StoredChunk)
    (pid dn sr : List Char) (age days : Int) (g : List Char),
    (retrieve_for_case embedFn store pid dn sr age days g 5 5).2.2 = store ∧
    (retrieve_for_case embedFn store pid dn sr age days g 5 5).2.1 =
      [RagOp.embedCall (build_semantic_query dn sr age days g),
       RagOp.searchCall (embedFn (build_semantic_query dn sr age days g))
         (some (("drug").toList)) 5,
       RagOp.searchCall (embedFn (build_semantic_query dn sr age days g))
         (some (("syndrome").toList)) 5] ∧
    (retrieve_for_case embedFn store pid dn sr age days g 5 5).1.query =
      build_semantic_query dn sr age days g ∧
    (retrieve_for_case embedFn store pid dn sr age days g 5 5).1.patient_id = pid ∧
    (retrieve_for_case embedFn store pid dn sr age days g 5 5).1.drug_name = dn ∧
    (retrieve_for_case embedFn store pid dn sr age days g 5 5).1.stop_reason = sr ∧
    (retrieve_for_case embedFn store pid dn sr age days g 5 5).1.age = age ∧
    (retrieve_for_case embedFn store pid dn sr age days g 5 5).1.days = days ∧
    (retrieve_for_case embedFn store pid dn sr age days g 5 5).1.gender = g ∧
    (retrieve_for_case embedFn store pid dn sr age days g 5 5).1.drug_context =
      (vector_search store (embedFn (build_semantic_query dn sr age days g))
        (some (("drug").toList)) 5).map (fun c => ⟨c.name, c.sectionLabel, c.chunk_text⟩) ∧
    (retrieve_for_case embedFn store pid dn sr age days g 5 5).1.syndrome_context =
      (vector_search store (embedFn (build_semantic_query dn sr age days g))
        (some (("syndrome").toList)) 5).map (fun c => ⟨c.name, c.sectionLabel, c.chunk_text⟩) := by
  intro embedFn store pid dn sr age days g
  exact ⟨rfl, rfl, rfl, rfl, rfl, rfl, rfl, rfl, rfl, rfl, rfl⟩

/-! ## Claim C1 -/

/-- C1: evaluation of `vector_search` at the failing input.  The store
holds exactly one syndrome chunk — fewer than `top_k = 5` — yet the
syndrome-filtered search returns the empty list instead of that chunk:
the `$match` type filter runs after the `$vectorSearch` global top-5
cut, and all five global top-5 chunks are drug chunks. -/
theorem claim_C1_eval :
    vector_search c1store c1q (some (("syndrome").toList)) 5 = [] ∧
    (c1store.filter (fun c => c.document_type == ("syndrome").toList)).length = 1 ∧
    (1 : Nat) < 5 := by
  refine ⟨by decide, by decide, by decide⟩

/-! ## Claim C4 -/

/-- C4 (amended): `_extract_field` tries the candidate keywords in list
order; the result comes from the first keyword that both occurs in the
text and has at least two period-separated parts in the 500-character
slice starting at its first occurrence (the second part, stripped and
cut to 200 characters); a found keyword whose slice has fewer than two
parts is passed over in favour of later keywords, and only when no
keyword yields a value is the fixed fallback "See full narrative"
returned — the function is total and never raises. -/
theorem claim_C4 : ∀ (text : List Char) (ks : List (List Char)),
    extract_field text ks =
      match ks.find? (fun k => yieldsB text k) with
      | none => ("See full narrative").toList
      | some k => secondSentenceVal text k := by
  intro text ks
  induction ks with
  | nil => rfl
  | cons k rest ih =>
    cases h1 : firstIdxWhere (fun suf => isPrefB k suf) text with
    | none =>
      have hy : yieldsB text k = false := by simp [yieldsB, h1]
      simp [extract_field, h1, List.find?, hy, ih]
    | some start =>
      cases h2 : splitOnC '.' ((text.drop start).take 500) with
      | nil =>
        have hy : yieldsB text k = false := by simp [yieldsB, h1, h2]
        simp [extract_field, h1, h2, List.find?, hy, ih]
      | cons s0 tl =>
        cases tl with
        | nil =>
          have hy : yieldsB text k = false := by simp [yieldsB, h1, h2]
          simp [extract_field, h1, h2, List.find?, hy, ih]
        | cons s1 tl2 =>
          have hy : yieldsB text k = true := by simp [yieldsB, h1, h2]
          simp [extract_field, h1, h2, List.find?, hy, secondSentenceVal]

/-- C4, counterexample to the claim as stated: in `c4text` the first
keyword "SYNDROME CORRELATION" does occur but fewer than two
period-separated parts follow it, so by the claim the result should be
the fallback; the code instead moves on to the second keyword and
returns "two" — which is also not the claimed fallback spelling. -/
theorem claim_C4_cex :
    extract_field c4text c4keywords = ("two").toList ∧
    (firstIdxWhere (fun suf => isPrefB (("SYNDROME CORRELATION").toList) suf) c4text).isSome = true ∧
    yieldsB c4text (("SYNDROME CORRELATION").toList) = false ∧
    ¬ (("two").toList = ("See full narrative").toList) ∧
    ¬ (("two").toList = ("see full narrative").toList) := by
  refine ⟨by decide, by decide, by decide, by decide, by decide⟩

/-! ## Chunker lemmas and claims C2, C10, C8 -/

theorem sectionChunk_label (dn sec body : List Char) :
    (sectionChunk dn sec body).sectionLabel = sec := rfl

theorem sectionChunk_name (dn sec body : List Char) :
    (sectionChunk dn sec body).name = dn := rfl

theorem sectionChunks_of_none {sec content : List Char} (dn : List Char)
    (h : sectionExtract sec content = none) : sectionChunks content dn sec = [] := by
  unfold sectionChunks
  rw [h]

theorem sectionChunks_of_some {sec content body : List Char} (dn : List Char)
    (h : sectionExtract sec content = some body) :
    sectionChunks content dn sec = [sectionChunk dn sec body] := by
  unfold sectionChunks
  rw [h]

/-- Section labels of the per-section chunks: the matched labels in
vocabulary order. -/
theorem labels_aux (content dn : List Char) : ∀ secs : List (List Char),
    (listJoin (secs.map (sectionChunks content dn))).map (fun c => c.sectionLabel)
      = secs.filter (fun s => (sectionExtract s content).isSome) := by
  intro secs
  induction secs with
  | nil => rfl
  | cons s ss ih =>
    have hstep : listJoin ((s :: ss).map (sectionChunks content dn)) =
        sectionChunks content dn s ++ listJoin (ss.map (sectionChunks content dn)) := rfl
    cases h : sectionExtract s content with
    | none =>
      have hb : ((sectionExtract s content).isSome) = false := by rw [h]; rfl
      rw [hstep, sectionChunks_of_none dn h, List.nil_append, ih, List.filter_cons, hb]
      simp
    | some body =>
      have hb : ((sectionExtract s content).isSome) = true := by rw [h]; rfl
      rw [hstep, sectionChunks_of_some dn h, List.filter_cons, hb]
      simp [ih, sectionChunk_label]

/-- Every per-section chunk carries the extracted document name. -/
theorem names_aux (content dn : List Char) : ∀ (secs : List (List Char)) (c : ChunkDict),
    c ∈ listJoin (secs.map (sectionChunks content dn)) → c.name = dn := by
  intro secs
  induction secs with
  | nil => intro c hc; cases hc
  | cons s ss ih =>
    intro c hc
    have hstep : listJoin ((s :: ss).map (sectionChunks content dn)) =
        sectionChunks content dn s ++ listJoin (ss.map (sectionChunks content dn)) := rfl
    rw [hstep] at hc
    rcases List.mem_append.mp hc with hc1 | hc2
    · cases h : sectionExtract s content with
      | none => rw [sectionChunks_of_none dn h] at hc1; cases hc1
      | some body =>
        rw [sectionChunks_of_some dn h] at hc1
        rcases List.mem_singleton.mp hc1 with rfl
        rfl
    · exact ih c hc2

/-- The chunk label sequence of `chunk_markdown_file`: `FULL_DOCUMENT`
first, then the matched section labels in vocabulary-list order. -/
theorem chunk_mkf_labels (stem content dt : List Char) :
    (chunk_markdown_file stem content dt).map (fun c => c.sectionLabel) =
      ("FULL_DOCUMENT").toList ::
        (sectionsFor dt).filter (fun s => (sectionExtract s content).isSome) := by
  show (_ :: listJoin _).map _ = _
  rw [List.map_cons, labels_aux content (docNameOf stem content) (sectionsFor dt)]

/-- Label `FULL_DOCUMENT` is not a vocabulary section label. -/
theorem full_doc_not_section (dt : List Char) :
    ¬ ("FULL_DOCUMENT").toList ∈ sectionsFor dt := by
  unfold sectionsFor
  split
  · decide
  · decide

/-- C2: chunking always succeeds and yields exactly `N + 1` chunks when
exactly `N` of the type's vocabulary labels match in the text (so one
chunk when none match); the first chunk is the single `FULL_DOCUMENT`
chunk, whose text is the whole document prefixed with the document name,
and no other chunk carries the `FULL_DOCUMENT` label. -/
theorem claim_C2 : ∀ stem content dt : List Char,
    (chunk_markdown_file stem content dt).length =
      1 + ((sectionsFor dt).filter (fun s => (sectionExtract s content).isSome)).length ∧
    (chunk_markdown_file stem content dt).head? =
      some ({ sectionLabel := ("FULL_DOCUMENT").toList,
              text := ("Document: ").toList ++ docNameOf stem content ++
                      ("\n\n").toList ++ content,
              name := docNameOf stem content } : ChunkDict) ∧
    ((chunk_markdown_file stem content dt).map (fun c => c.sectionLabel)).count
      (("FULL_DOCUMENT").toList) = 1 := by
  intro stem content dt
  refine ⟨?_, rfl, ?_⟩
  · have h := congrArg List.length (chunk_mkf_labels stem content dt)
    simpa [Nat.add_comm] using h
  · rw [chunk_mkf_labels stem content dt, List.count_cons_self]
    have h0 : (((sectionsFor dt).filter
        (fun s => (sectionExtract s content).isSome)).count (("FULL_DOCUMENT").toList)) = 0 := by
      rw [List.count_eq_zero]
      intro hmem
      exact full_doc_not_section dt (List.mem_of_mem_filter hmem)
    rw [h0]

/-- C10: the first chunk is always the `FULL_DOCUMENT` chunk and the
remaining chunks follow the fixed vocabulary-list order of the document
type; concretely, a syndrome document whose text lists PATHOPHYSIOLOGY
(at index 0) before KEY SYMPTOMS (at index 21) still chunks as
`[FULL_DOCUMENT, KEY SYMPTOMS, PATHOPHYSIOLOGY]` — vocabulary order, not
text order. -/
theorem claim_C10 :
    (∀ stem content dt : List Char,
      (chunk_markdown_file stem content dt).map (fun c => c.sectionLabel) =
        ("FULL_DOCUMENT").toList ::
          (sectionsFor dt).filter (fun s => (sectionExtract s content).isSome)) ∧
    (chunk_markdown_file (("f").toList)
        (("PATHOPHYSIOLOGY:\nbbb\nKEY SYMPTOMS:\naaa\n").toList)
        (("syndrome").toList)).map (fun c => c.sectionLabel) =
      [("FULL_DOCUMENT").toList, ("KEY SYMPTOMS").toList, ("PATHOPHYSIOLOGY").toList] ∧
    firstIdxWhere (fun suf => sectionMatchAt (("PATHOPHYSIOLOGY").toList) suf)
      (("PATHOPHYSIOLOGY:\nbbb\nKEY SYMPTOMS:\naaa\n").toList) = some 0 ∧
    firstIdxWhere (fun suf => sectionMatchAt (("KEY SYMPTOMS").toList) suf)
      (("PATHOPHYSIOLOGY:\nbbb\nKEY SYMPTOMS:\naaa\n").toList) = some 21 := by
  refine ⟨chunk_mkf_labels, by decide, by decide, by decide⟩

/-- C8, counterexample to the claim as stated: a document whose
`DRUG NAME:` line is not leading (the text starts with "Intro line")
still gets its name from that line — the regex searches anywhere — while
the claim's leading-line reading would fall back to the filename stem. -/
theorem claim_C8_cex :
    docNameOf (("fileA").toList) (("Intro line\nDRUG NAME: Aspirin\nmore").toList) =
      ("Aspirin").toList ∧
    docNameClaim (("fileA").toList) (("Intro line\nDRUG NAME: Aspirin\nmore").toList) =
      ("fileA").toList ∧
    ¬ (("Aspirin").toList = ("fileA").toList) := by
  refine ⟨by decide, by decide, by decide⟩

/-- C8 (amended): every emitted chunk carries the document name computed
by `docNameOf`, which takes the name from the first
`DRUG NAME:`/`SYNDROME:` match occurring anywhere in the text (not only
from a leading line) and falls back to the source filename stem exactly
when no such match exists anywhere. -/
theorem claim_C8 :
    (∀ stem content dt : List Char, ∀ c ∈ chunk_markdown_file stem content dt,
        c.name = docNameOf stem content) ∧
    (∀ stem content : List Char, findNameMatch content = none →
        docNameOf stem content = stem) ∧
    (∀ (stem content v : List Char), findNameMatch content = some v →
        docNameOf stem content = pyStrip v) := by
  refine ⟨?_, ?_, ?_⟩
  · intro stem content dt c hc
    rcases List.mem_cons.mp hc with hc1 | hc2
    · rw [hc1]
    · exact names_aux content (docNameOf stem content) (sectionsFor dt) c hc2
  · intro stem content h
    unfold docNameOf
    rw [h]
  · intro stem content v h
    unfold docNameOf
    rw [h]

/-- C8 witness: for the sectionless drug document "hello" in file stem
"fileB" (no name header anywhere), the emitted chunk's name is the stem. -/
theorem claim_C8_witness :
    ({ sectionLabel := ("FULL_DOCUMENT").toList,
       text := ("Document: fileB\n\nhello").toList,
       name := ("fileB").toList } : ChunkDict).name =
      docNameOf (("fileB").toList) (("hello").toList) ∧
    docNameOf (("fileB").toList) (("hello").toList) = ("fileB").toList :=
  ⟨claim_C8.1 (("fileB").toList) (("hello").toList) (("drug").toList) _ (by decide),
   claim_C8.2.1 (("fileB").toList) (("hello").toList) (by decide)⟩

/-! ## Substring lemmas -/

theorem isPrefB_self_append : ∀ a t : List Char, isPrefB a (a ++ t) = true := by
  intro a
  induction a with
  | nil => intro t; rfl
  | cons c cs ih => intro t; simp [isPrefB, ih]

theorem isInfB_of_isPrefB {n h : List Char} (hp : isPrefB n h = true) :
    isInfB n h = true := by
  cases h with
  | nil => simpa [isInfB] using hp
  | cons c t => simp [isInfB, hp]

theorem isInfB_cons {n h : List Char} (c : Char) (hi : isInfB n h = true) :
    isInfB n (c :: h) = true := by
  simp [isInfB, hi]

theorem isInfB_append_left {n h : List Char} : ∀ x : List Char,
    isInfB n h = true → isInfB n (x ++ h) = true := by
  intro x
  induction x with
  | nil => intro hi; simpa using hi
  | cons c cs ih => intro hi; exact isInfB_cons c (ih hi)

/-! ## Rank-sort membership lemmas -/

theorem mem_insertRank {α : Type} (le : α → α → Bool) (a x : α) :
    ∀ l : List α, x ∈ insertRank le a l → x = a ∨ x ∈ l := by
  intro l
  induction l with
  | nil =>
    intro hx
    rcases List.mem_singleton.mp hx with rfl
    exact Or.inl rfl
  | cons b bs ih =>
    intro hx
    unfold insertRank at hx
    by_cases hle : le a b
    · rw [if_pos hle] at hx
      rcases List.mem_cons.mp hx with hb | hx2
      · exact Or.inr (hb ▸ List.mem_cons_self b bs)
      · rcases ih hx2 with h1 | h2
        · exact Or.inl h1
        · exact Or.inr (List.mem_cons_of_mem b h2)
    · rw [if_neg hle] at hx
      rcases List.mem_cons.mp hx with ha | hx2
      · exact Or.inl ha
      · exact Or.inr hx2

theorem mem_sortDesc {α : Type} (le : α → α → Bool) (x : α) :
    ∀ l : List α, x ∈ sortDesc le l → x ∈ l := by
  intro l
  induction l with
  | nil => intro hx; cases hx
  | cons a as ih =>
    intro hx
    rcases mem_insertRank le a x (sortDesc le as) hx with rfl | hx2
    · exact List.mem_cons_self _ _
    · exact List.mem_cons_of_mem a (ih hx2)

/-! ## Claim C6 -/

/-- C6: a type-filtered search against a store holding no chunk of that
type returns the empty list (rather than failing), and the Context
Formatter always renders both labeled divisions — the drug and syndrome
headers occur in its output for every bundle, and an empty drug list
yields the drug division with an empty body, not an omitted division. -/
theorem claim_C6 :
    (∀ (store : List StoredChunk) (v : List ℤ) (t : List Char) (k : Nat),
      (∀ c ∈ store, ¬ c.document_type = t) →
      vector_search store v (some t) k = []) ∧
    (∀ ctx : Bundle,
      isInfB (("--- DRUG INFORMATION ---").toList) (format_context_for_llm ctx) = true ∧
      isInfB (("--- SYNDROME INFORMATION ---").toList) (format_context_for_llm ctx) = true ∧
      (ctx.drug_context = [] →
        format_context_for_llm ctx =
          ("=== RETRIEVED MEDICAL KNOWLEDGE ===\n\n--- DRUG INFORMATION ---\n\n\n--- SYNDROME INFORMATION ---\n\n").toList
            ++ renderKList (("Syndrome Knowledge").toList) 1 ctx.syndrome_context)) := by
  constructor
  · intro store v t k h
    show ((vectorSearchBackend store v (k * 10) k).filter
        (fun r => r.document_type == t)).map _ = []
    have hf : (vectorSearchBackend store v (k * 10) k).filter
        (fun r => r.document_type == t) = [] := by
      rw [List.filter_eq_nil_iff]
      intro a ha
      have hmem : a ∈ store :=
        mem_sortDesc _ a store (List.mem_of_mem_take ha)
      intro hbeq
      exact h a hmem (eq_of_beq hbeq)
    rw [hf]
    rfl
  · intro ctx
    refine ⟨?_, ?_, ?_⟩
    · exact isInfB_append_left _
        (isInfB_of_isPrefB (isPrefB_self_append _ _))
    · refine isInfB_append_left _ (isInfB_append_left _ (isInfB_append_left _ ?_))
      exact isInfB_cons '\n' (isInfB_of_isPrefB (isPrefB_self_append _ _))
    · intro h
      unfold format_context_for_llm
      rw [h]
      rfl

/-- C6 witness: the empty store returns no drug chunks for a
drug-filtered search, and the all-empty bundle `c6ctx` still renders
both divisions with empty bodies. -/
theorem claim_C6_witness :
    vector_search [] [1] (some (("drug").toList)) 5 = [] ∧
    format_context_for_llm c6ctx =
      ("=== RETRIEVED MEDICAL KNOWLEDGE ===\n\n--- DRUG INFORMATION ---\n\n\n--- SYNDROME INFORMATION ---\n\n").toList
        ++ renderKList (("Syndrome Knowledge").toList) 1 c6ctx.syndrome_context :=
  ⟨claim_C6.1 [] [1] (("drug").toList) 5 (by simp),
   (claim_C6.2 c6ctx).2.2 (by rfl)⟩

/-! ## Word-splitting lemmas for the query composer -/

theorem isInfB_nil : ∀ h : List Char, isInfB [] h = true := by
  intro h
  cases h with
  | nil => rfl
  | cons c t => simp [isInfB, isPrefB]

theorem splitWs_cons_ws {c : Char} (h : pyIsSpace c = true) (cs : List Char) :
    splitWs (c :: cs) = splitWs cs := by
  simp only [splitWs, h, if_true]

theorem splitWs_cons2_ws {x d : Char} (hx : pyIsSpace x = false)
    (hd : pyIsSpace d = true) (cs : List Char) :
    splitWs (x :: d :: cs) = [x] :: splitWs (d :: cs) := by
  conv_lhs => rw [splitWs]
  simp only [hx, hd, if_true, if_false, Bool.false_eq_true]

/-- A word-starting character heads the first word of the split. -/
theorem splitWs_shape : ∀ (cs : List Char) (d : Char), pyIsSpace d = false →
    ∃ w ws, splitWs (d :: cs) = (d :: w) :: ws := by
  intro cs
  induction cs with
  | nil =>
    intro d hd
    refine ⟨[], [], ?_⟩
    simp only [splitWs, hd, Bool.false_eq_true, if_false]
  | cons e es ih =>
    intro d hd
    by_cases he : pyIsSpace e = true
    · exact ⟨[], splitWs (e :: es), splitWs_cons2_ws hd he es⟩
    · obtain ⟨w, ws, hw⟩ := ih e (by simpa using he)
      refine ⟨e :: w, ws, ?_⟩
      conv_lhs => rw [splitWs]
      simp only [hd, Bool.false_eq_true, if_false, he, hw]

/-- Splitting cuts at any whitespace character between two parts. -/
theorem splitWs_cut : ∀ (a b : List Char) (c : Char), pyIsSpace c = true →
    splitWs (a ++ c :: b) = splitWs a ++ splitWs b := by
  intro a
  induction a with
  | nil => intro b c hc; rw [List.nil_append, splitWs_cons_ws hc]; rfl
  | cons x a2 ih =>
    intro b c hc
    by_cases hx : pyIsSpace x = true
    · rw [List.cons_append, splitWs_cons_ws hx, splitWs_cons_ws hx, ih b c hc]
    · replace hx : pyIsSpace x = false := by simpa using hx
      cases a2 with
      | nil =>
        rw [List.cons_append, List.nil_append, splitWs_cons2_ws hx hc b,
          splitWs_cons_ws hc,
          show splitWs [x] = [[x]] from by
            simp only [splitWs, hx, Bool.false_eq_true, if_false]]
        rfl
      | cons y a3 =>
        by_cases hy : pyIsSpace y = true
        · rw [List.cons_append, List.cons_append,
            splitWs_cons2_ws hx hy (a3 ++ c :: b), splitWs_cons2_ws hx hy a3,
            ← List.cons_append, ih b c hc]
          rfl
        · replace hy : pyIsSpace y = false := by simpa using hy
          obtain ⟨w, ws, hw⟩ := splitWs_shape a3 y hy
          have hw2 : splitWs (y :: (a3 ++ c :: b)) = (y :: w) :: (ws ++ splitWs b) := by
            have := ih b c hc
            rw [List.cons_append] at this
            rw [this, hw]
            rfl
          conv_lhs => rw [List.cons_append, List.cons_append, splitWs]
          simp only [hx, Bool.false_eq_true, if_false, hy, hw2]
          conv_rhs => rw [splitWs]
          simp only [hx, Bool.false_eq_true, if_false, hy, hw]
          rfl

theorem splitWs_cut_sp (a b : List Char) :
    splitWs (a ++ ' ' :: b) = splitWs a ++ splitWs b :=
  splitWs_cut a b ' ' (by decide)

/-- An all-whitespace prefix never contributes a word. -/
theorem splitWs_wsPrefix : ∀ (w x : List Char), w.all pyIsSpace = true →
    splitWs (w ++ x) = splitWs x := by
  intro w
  induction w with
  | nil => intro x _; rfl
  | cons c cs ih =>
    intro x hall
    rw [List.all_cons, Bool.and_eq_true] at hall
    rw [List.cons_append, splitWs_cons_ws hall.1, ih x hall.2]

theorem splitWs_nl8 (x : List Char) :
    splitWs ((("\n        ").toList) ++ x) = splitWs x :=
  splitWs_wsPrefix _ x (by decide)

/-! ## Join lemmas -/

theorem isPrefB_append_both : ∀ (x a b : List Char),
    isPrefB a b = true → isPrefB (x ++ a) (x ++ b) = true := by
  intro x
  induction x with
  | nil => intro a b h; simpa using h
  | cons c cs ih => intro a b h; simp [isPrefB, ih a b h]

theorem joinSp_pref : ∀ l m : List (List Char),
    isPrefB (joinSp l) (joinSp (l ++ m)) = true := by
  intro l
  induction l with
  | nil => intro m; rfl
  | cons w l2 ih =>
    intro m
    cases l2 with
    | nil =>
      cases m with
      | nil => simpa using isPrefB_self_append w []
      | cons u us =>
        show isPrefB w (joinSp (w :: u :: us)) = true
        exact isPrefB_self_append w _
    | cons w2 l3 =>
      show isPrefB (w ++ ' ' :: joinSp (w2 :: l3))
        (w ++ ' ' :: joinSp ((w2 :: l3) ++ m)) = true
      apply isPrefB_append_both w
      show (' ' = ' ' && isPrefB (joinSp (w2 :: l3)) (joinSp ((w2 :: l3) ++ m))) = true
      rw [ih m]
      rfl

/-- The join of a middle run of words is a substring of the join of the
whole word list. -/
theorem joinSp_infix : ∀ l1 l2 l3 : List (List Char),
    isInfB (joinSp l2) (joinSp (l1 ++ l2 ++ l3)) = true := by
  intro l1
  induction l1 with
  | nil =>
    intro l2 l3
    exact isInfB_of_isPrefB (joinSp_pref l2 l3)
  | cons w l1' ih =>
    intro l2 l3
    cases h : l1' ++ l2 ++ l3 with
    | nil =>
      have h2 : l2 = [] := (List.append_eq_nil.mp (List.append_eq_nil.mp h).1).2
      rw [h2]
      exact isInfB_nil _
    | cons u us =>
      have ih2 := ih l2 l3
      rw [h] at ih2
      show isInfB (joinSp l2) (joinSp (w :: (l1' ++ l2 ++ l3))) = true
      rw [h]
      show isInfB (joinSp l2) (w ++ ' ' :: joinSp (u :: us)) = true
      exact isInfB_append_left w (isInfB_cons ' ' ih2)

/-- Substring through an explicit decomposition of the word list. -/
theorem joinSp_infix_of_eq {big l1 l2 l3 : List (List Char)}
    (h : big = l1 ++ l2 ++ l3) : isInfB (joinSp l2) (joinSp big) = true := by
  rw [h]
  exact joinSp_infix l1 l2 l3

/-! ## Claim C7 -/

/-- The composed query is the space-join of the words of its parts: the
drug words, the stop-reason words, the fixed keyword groups, and the
age/duration tag words, in template order. -/
theorem bsq_words (drug stop : List Char) (age days : Int) (gender : List Char) :
    build_semantic_query drug stop age days gender =
      joinSp (splitWs drug ++ splitWs stop ++ kw4 ++ splitWs (ageRisk age) ++
        kwAgeRisk ++ splitWs (durationTag days) ++ kw7) := by
  have e1 : (" ").toList = [' '] := rfl
  have e2 : (" adverse effect mechanism toxicity \n        ").toList =
      ' ' :: ((("adverse effect mechanism toxicity").toList) ++
        ' ' :: (("\n        ").toList)) := rfl
  have e3 : (" age risk ").toList =
      ' ' :: ((("age risk").toList) ++ (' ' :: ([] : List Char))) := rfl
  have e4 : (" duration pathophysiology \n        clinical manifestation syndrome complication serious").toList =
      ' ' :: ((("duration pathophysiology").toList) ++
        ' ' :: ((("\n        ").toList) ++
          (("clinical manifestation syndrome complication serious").toList))) := rfl
  simp only [build_semantic_query, normalizeWs]
  congr 1
  rw [e1, e2, e3, e4]
  simp only [List.append_assoc, List.cons_append, List.singleton_append,
    List.nil_append, splitWs_cut_sp, splitWs_nl8]
  rw [show splitWs (("adverse effect mechanism toxicity").toList) =
        [("adverse").toList, ("effect").toList, ("mechanism").toList, ("toxicity").toList] from rfl,
    show splitWs (("age risk").toList) = [("age").toList, ("risk").toList] from rfl,
    show splitWs (("duration pathophysiology").toList) =
        [("duration").toList, ("pathophysiology").toList] from rfl,
    show splitWs (("clinical manifestation syndrome complication serious").toList) =
        [("clinical").toList, ("manifestation").toList, ("syndrome").toList,
         ("complication").toList, ("serious").toList] from rfl]
  simp [kw4, kwAgeRisk, kw7, List.append_assoc]

/-- C7 (amended): for all inputs the composed query contains, as
substrings, the whitespace-normalized drug name and stop reason (inputs
already written with single spaces — such as "atorvastatin" and
"muscle pain" — therefore appear verbatim), every fixed boilerplate
keyword group, and the age and duration tags; in particular the
atorvastatin / muscle-pain / 68 / 45-day case contains "elderly",
"chronic prolonged", "atorvastatin" and "muscle pain". -/
theorem claim_C7 : (∀ (drug stop : List Char) (age days : Int) (gender : List Char),
    isInfB (normalizeWs drug) (build_semantic_query drug stop age days gender) = true ∧
    isInfB (normalizeWs stop) (build_semantic_query drug stop age days gender) = true ∧
    isInfB (("adverse effect mechanism toxicity").toList)
      (build_semantic_query drug stop age days gender) = true ∧
    isInfB (("age risk").toList) (build_semantic_query drug stop age days gender) = true ∧
    isInfB (("duration pathophysiology").toList)
      (build_semantic_query drug stop age days gender) = true ∧
    isInfB (("clinical manifestation syndrome complication serious").toList)
      (build_semantic_query drug stop age days gender) = true ∧
    isInfB (ageRisk age) (build_semantic_query drug stop age days gender) = true ∧
    isInfB (durationTag days) (build_semantic_query drug stop age days gender) = true) ∧
    isInfB (("atorvastatin").toList)
      (build_semantic_query (("atorvastatin").toList) (("muscle pain").toList) 68 45 []) = true ∧
    isInfB (("muscle pain").toList)
      (build_semantic_query (("atorvastatin").toList) (("muscle pain").toList) 68 45 []) = true ∧
    isInfB (("elderly").toList)
      (build_semantic_query (("atorvastatin").toList) (("muscle pain").toList) 68 45 []) = true ∧
    isInfB (("chronic prolonged").toList)
      (build_semantic_query (("atorvastatin").toList) (("muscle pain").toList) 68 45 []) = true := by
  refine ⟨?_, by decide, by decide, by decide, by decide⟩
  intro drug stop age days gender
  refine ⟨?_, ?_, ?_, ?_, ?_, ?_, ?_, ?_⟩
  · rw [bsq_words drug stop age days gender]
    exact joinSp_infix_of_eq (show (splitWs drug ++ splitWs stop ++ kw4 ++
        splitWs (ageRisk age) ++ kwAgeRisk ++ splitWs (durationTag days) ++ kw7) =
      [] ++ splitWs drug ++ (splitWs stop ++ kw4 ++ splitWs (ageRisk age) ++
        kwAgeRisk ++ splitWs (durationTag days) ++ kw7) from by
      simp [List.append_assoc])
  · rw [bsq_words drug stop age days gender]
    exact joinSp_infix_of_eq (show (splitWs drug ++ splitWs stop ++ kw4 ++
        splitWs (ageRisk age) ++ kwAgeRisk ++ splitWs (durationTag days) ++ kw7) =
      splitWs drug ++ splitWs stop ++ (kw4 ++ splitWs (ageRisk age) ++
        kwAgeRisk ++ splitWs (durationTag days) ++ kw7) from by
      simp [List.append_assoc])
  · rw [bsq_words drug stop age days gender,
      show ("adverse effect mechanism toxicity").toList = joinSp kw4 from rfl]
    exact joinSp_infix_of_eq (show (splitWs drug ++ splitWs stop ++ kw4 ++
        splitWs (ageRisk age) ++ kwAgeRisk ++ splitWs (durationTag days) ++ kw7) =
      (splitWs drug ++ splitWs stop) ++ kw4 ++ (splitWs (ageRisk age) ++
        kwAgeRisk ++ splitWs (durationTag days) ++ kw7) from by
      simp [List.append_assoc])
  · rw [bsq_words drug stop age days gender,
      show ("age risk").toList = joinSp kwAgeRisk from rfl]
    exact joinSp_infix_of_eq (show (splitWs drug ++ splitWs stop ++ kw4 ++
        splitWs (ageRisk age) ++ kwAgeRisk ++ splitWs (durationTag days) ++ kw7) =
      (splitWs drug ++ splitWs stop ++ kw4 ++ splitWs (ageRisk age)) ++
        kwAgeRisk ++ (splitWs (durationTag days) ++ kw7) from by
      simp [List.append_assoc])
  · rw [bsq_words drug stop age days gender,
      show ("duration pathophysiology").toList =
        joinSp [("duration").toList, ("pathophysiology").toList] from rfl]
    exact joinSp_infix_of_eq (show (splitWs drug ++ splitWs stop ++ kw4 ++
        splitWs (ageRisk age) ++ kwAgeRisk ++ splitWs (durationTag days) ++ kw7) =
      (splitWs drug ++ splitWs stop ++ kw4 ++ splitWs (ageRisk age) ++
        kwAgeRisk ++ splitWs (durationTag days)) ++
        [("duration").toList, ("pathophysiology").toList] ++
        [("clinical").toList, ("manifestation").toList, ("syndrome").toList,
         ("complication").toList, ("serious").toList] from by
      simp [kw7, List.append_assoc])
  · rw [bsq_words drug stop age days gender,
      show ("clinical manifestation syndrome complication serious").toList =
        joinSp [("clinical").toList, ("manifestation").toList, ("syndrome").toList,
          ("complication").toList, ("serious").toList] from rfl]
    exact joinSp_infix_of_eq (show (splitWs drug ++ splitWs stop ++ kw4 ++
        splitWs (ageRisk age) ++ kwAgeRisk ++ splitWs (durationTag days) ++ kw7) =
      (splitWs drug ++ splitWs stop ++ kw4 ++ splitWs (ageRisk age) ++
        kwAgeRisk ++ splitWs (durationTag days) ++
        [("duration").toList, ("pathophysiology").toList]) ++
        [("clinical").toList, ("manifestation").toList, ("syndrome").toList,
         ("complication").toList, ("serious").toList] ++ [] from by
      simp [kw7, List.append_assoc])
  · have hj : joinSp (splitWs (ageRisk age)) = ageRisk age := by
      unfold ageRisk
      split <;> rfl
    have h := joinSp_infix_of_eq (show (splitWs drug ++ splitWs stop ++ kw4 ++
        splitWs (ageRisk age) ++ kwAgeRisk ++ splitWs (durationTag days) ++ kw7) =
      (splitWs drug ++ splitWs stop ++ kw4) ++ splitWs (ageRisk age) ++
        (kwAgeRisk ++ splitWs (durationTag days) ++ kw7) from by
      simp [List.append_assoc])
    rw [hj] at h
    rw [bsq_words drug stop age days gender]
    exact h
  · have hj : joinSp (splitWs (durationTag days)) = durationTag days := by
      unfold durationTag
      split_ifs <;> rfl
    have h := joinSp_infix_of_eq (show (splitWs drug ++ splitWs stop ++ kw4 ++
        splitWs (ageRisk age) ++ kwAgeRisk ++ splitWs (durationTag days) ++ kw7) =
      (splitWs drug ++ splitWs stop ++ kw4 ++ splitWs (ageRisk age) ++
        kwAgeRisk) ++ splitWs (durationTag days) ++ kw7 from by
      simp [List.append_assoc])
    rw [hj] at h
    rw [bsq_words drug stop age days gender]
    exact h

/-- C7, counterexample to the claim as stated: a stop reason containing
a double space ("muscle  pain") is not contained verbatim in the
composed query — whitespace collapsing rewrites it to "muscle pain" —
so the universally-quantified verbatim-containment claim is false. -/
theorem claim_C7_cex :
    isInfB (("muscle  pain").toList)
      (build_semantic_query (("atorvastatin").toList) (("muscle  pain").toList) 68 45 []) = false ∧
    isInfB (("muscle pain").toList)
      (build_semantic_query (("atorvastatin").toList) (("muscle  pain").toList) 68 45 []) = true := by
  refine ⟨by decide, by decide⟩
